import Mathlib

/-!
Verification of the llmtoolbox tool registry and dispatch engine.

The repository ships two generations of the registry:
* `src/lib.rs` defines a synchronous `ToolBox` keyed by a `name` envelope
  field, with a per-function validator map and JSON-Schema validation
  performed during `parse_value_tool_call`; its `call` panics when the
  function name is unknown.  This generation is embedded in namespace
  `LibRs`.
* `src/toolbox.rs` defines `ToolBoxLocal` and an identical `ToolBox`
  (differing only in the Rust `Send + Sync` bounds, which have no
  semantic content for our purposes), keyed by a `function_name` envelope
  field; envelope parsing performs no registry or schema check and
  dispatch returns `FunctionNotFound` when the name is unknown.  This
  generation is embedded in namespace `ToolboxRs`.

JSON values are embedded with numbers abstracted to `Int`; no verified
property computes with numeric values.  External collaborators
(serde_json text parsing and the jsonschema compiled validators) are
abstracted as function parameters, exactly as the source consumes them
through opaque library calls.
-/

/-- JSON value, mirroring serde_json Value.  Objects are association
lists of fields; serde_json maps never contain duplicate keys, and all
lemmas that need key uniqueness take it as an explicit hypothesis. -/
inductive JValue where
  | null
  | bool (b : Bool)
  | num (n : Int)
  | str (s : String)
  | arr (elems : List JValue)
  | obj (fields : List (String × JValue))
deriving Repr, Inhabited

mutual

/-- Decidable equality of JSON values (the deriving handler does not
support the nested inductive, so it is spelled out). -/
def JValue.decEq : (a b : JValue) → Decidable (a = b)
  | .null, .null => isTrue rfl
  | .null, .bool _ => isFalse (fun h => JValue.noConfusion h)
  | .null, .num _ => isFalse (fun h => JValue.noConfusion h)
  | .null, .str _ => isFalse (fun h => JValue.noConfusion h)
  | .null, .arr _ => isFalse (fun h => JValue.noConfusion h)
  | .null, .obj _ => isFalse (fun h => JValue.noConfusion h)
  | .bool _, .null => isFalse (fun h => JValue.noConfusion h)
  | .bool x, .bool y =>
    if h : x = y then isTrue (by rw [h])
    else isFalse (fun hc => by injection hc with h2; exact h h2)
  | .bool _, .num _ => isFalse (fun h => JValue.noConfusion h)
  | .bool _, .str _ => isFalse (fun h => JValue.noConfusion h)
  | .bool _, .arr _ => isFalse (fun h => JValue.noConfusion h)
  | .bool _, .obj _ => isFalse (fun h => JValue.noConfusion h)
  | .num _, .null => isFalse (fun h => JValue.noConfusion h)
  | .num _, .bool _ => isFalse (fun h => JValue.noConfusion h)
  | .num x, .num y =>
    if h : x = y then isTrue (by rw [h])
    else isFalse (fun hc => by injection hc with h2; exact h h2)
  | .num _, .str _ => isFalse (fun h => JValue.noConfusion h)
  | .num _, .arr _ => isFalse (fun h => JValue.noConfusion h)
  | .num _, .obj _ => isFalse (fun h => JValue.noConfusion h)
  | .str _, .null => isFalse (fun h => JValue.noConfusion h)
  | .str _, .bool _ => isFalse (fun h => JValue.noConfusion h)
  | .str _, .num _ => isFalse (fun h => JValue.noConfusion h)
  | .str x, .str y =>
    if h : x = y then isTrue (by rw [h])
    else isFalse (fun hc => by injection hc with h2; exact h h2)
  | .str _, .arr _ => isFalse (fun h => JValue.noConfusion h)
  | .str _, .obj _ => isFalse (fun h => JValue.noConfusion h)
  | .arr _, .null => isFalse (fun h => JValue.noConfusion h)
  | .arr _, .bool _ => isFalse (fun h => JValue.noConfusion h)
  | .arr _, .num _ => isFalse (fun h => JValue.noConfusion h)
  | .arr _, .str _ => isFalse (fun h => JValue.noConfusion h)
  | .arr xs, .arr ys =>
    match JValue.decEqElems xs ys with
    | isTrue h => isTrue (by rw [h])
    | isFalse h => isFalse (fun hc => by injection hc with h2; exact h h2)
  | .arr _, .obj _ => isFalse (fun h => JValue.noConfusion h)
  | .obj _, .null => isFalse (fun h => JValue.noConfusion h)
  | .obj _, .bool _ => isFalse (fun h => JValue.noConfusion h)
  | .obj _, .num _ => isFalse (fun h => JValue.noConfusion h)
  | .obj _, .str _ => isFalse (fun h => JValue.noConfusion h)
  | .obj _, .arr _ => isFalse (fun h => JValue.noConfusion h)
  | .obj xs, .obj ys =>
    match JValue.decEqFields xs ys with
    | isTrue h => isTrue (by rw [h])
    | isFalse h => isFalse (fun hc => by injection hc with h2; exact h h2)

/-- Decidable equality of lists of JSON values. -/
def JValue.decEqElems : (xs ys : List JValue) → Decidable (xs = ys)
  | [], [] => isTrue rfl
  | [], _ :: _ => isFalse (fun h => List.noConfusion h)
  | _ :: _, [] => isFalse (fun h => List.noConfusion h)
  | x :: xs, y :: ys =>
    match JValue.decEq x y, JValue.decEqElems xs ys with
    | isTrue h1, isTrue h2 => isTrue (by rw [h1, h2])
    | isFalse h1, _ => isFalse (fun hc => by injection hc with ha hb; exact h1 ha)
    | _, isFalse h2 => isFalse (fun hc => by injection hc with ha hb; exact h2 hb)

/-- Decidable equality of lists of JSON object fields. -/
def JValue.decEqFields : (xs ys : List (String × JValue)) → Decidable (xs = ys)
  | [], [] => isTrue rfl
  | [], _ :: _ => isFalse (fun h => List.noConfusion h)
  | _ :: _, [] => isFalse (fun h => List.noConfusion h)
  | (k1, v1) :: xs, (k2, v2) :: ys =>
    if hk : k1 = k2 then
      match JValue.decEq v1 v2, JValue.decEqFields xs ys with
      | isTrue h1, isTrue h2 => isTrue (by rw [hk, h1, h2])
      | isFalse h1, _ => isFalse (fun hc => by
          injection hc with ha hb
          exact h1 (congrArg Prod.snd ha))
      | _, isFalse h2 => isFalse (fun hc => by injection hc with ha hb; exact h2 hb)
    else
      isFalse (fun hc => by
        injection hc with ha hb
        exact hk (congrArg Prod.fst ha))

end

instance : DecidableEq JValue := JValue.decEq

/-- Association map from string keys, mirroring serde_json Map and the
std HashMap as used by the source (only get, contains_key, insert and
extend are ever used). -/
abbrev AssocMap (α : Type) := List (String × α)

/-- Map of fields of a JSON object (serde_json Map of String to Value). -/
abbrev JsonMap := AssocMap JValue

/-- Lookup of a key, mirroring Map::get / HashMap::get. -/
def lookupKey {α : Type} (m : AssocMap α) (k : String) : Option α :=
  match m with
  | [] => none
  | (k1, v) :: rest => if k1 = k then some v else lookupKey rest k

/-- Insert of a binding, replacing the binding of an existing key,
mirroring Map::insert / HashMap::insert. -/
def mapInsert {α : Type} (m : AssocMap α) (k : String) (v : α) : AssocMap α :=
  match m with
  | [] => [(k, v)]
  | (k1, v1) :: rest =>
    if k1 = k then (k, v) :: rest else (k1, v1) :: mapInsert rest k v

/-- Extend of a map by all bindings of another, mirroring
Map::extend / HashMap::extend (later bindings override). -/
def mapExtend {α : Type} (m other : AssocMap α) : AssocMap α :=
  other.foldl (fun acc kv => mapInsert acc kv.1 kv.2) m

/-- Keys of a map. -/
def mapKeys {α : Type} (m : AssocMap α) : List String :=
  m.map Prod.fst

/-- Removal of a binding, returning the removed value and the remaining
map, mirroring Map::remove (which returns the removed value). -/
def removeKey (m : JsonMap) (k : String) : Option JValue × JsonMap :=
  match m with
  | [] => (none, [])
  | (k1, v) :: rest =>
    if k1 = k then (some v, rest)
    else
      let r := removeKey rest k
      (r.1, (k1, v) :: r.2)

/-- Field access on a JSON value, mirroring Value::get with a string
index: it returns the field of an object and none for any other value. -/
def JValue.get (v : JValue) (k : String) : Option JValue :=
  match v with
  | .obj fields => lookupKey fields k
  | _ => none

/-- String extraction, mirroring Value::as_str. -/
def JValue.asStr : JValue → Option String
  | .str s => some s
  | _ => none

/-- Object test, mirroring Value::is_object. -/
def JValue.isObject : JValue → Bool
  | .obj _ => true
  | _ => false

/-- Escape of one character in a JSON string literal, mirroring the
serde_json Display escaping. -/
def escapeChar (c : Char) : String :=
  if c = '"' then "\\\""
  else if c = '\\' then "\\\\"
  else if c = '\n' then "\\n"
  else if c = '\r' then "\\r"
  else if c = '\t' then "\\t"
  else if c = '\x08' then "\\b"
  else if c = '\x0c' then "\\f"
  else if c.toNat < 32 then
    let hexDigit : Nat → String := fun n =>
      String.singleton (if n < 10 then Char.ofNat (48 + n) else Char.ofNat (87 + n))
    "\\u00" ++ hexDigit (c.toNat / 16) ++ hexDigit (c.toNat % 16)
  else String.singleton c

/-- Escape of a JSON string literal body. -/
def escapeString (s : String) : String :=
  String.join (s.toList.map escapeChar)

mutual

/-- Compact JSON text of a value, mirroring the serde_json Display
implementation used by the format interpolation of error messages. -/
def JValue.render : JValue → String
  | .null => "null"
  | .bool true => "true"
  | .bool false => "false"
  | .num n => toString n
  | .str s => "\"" ++ escapeString s ++ "\""
  | .arr elems => "[" ++ renderElems elems ++ "]"
  | .obj fields => "\x7b" ++ renderFields fields ++ "\x7d"

/-- Comma separated rendering of array elements. -/
def renderElems : List JValue → String
  | [] => ""
  | [v] => v.render
  | v :: rest => v.render ++ "," ++ renderElems rest

/-- Comma separated rendering of object fields. -/
def renderFields : List (String × JValue) → String
  | [] => ""
  | [(k, v)] => "\"" ++ escapeString k ++ "\":" ++ v.render
  | (k, v) :: rest => "\"" ++ escapeString k ++ "\":" ++ v.render ++ "," ++ renderFields rest

end

/-- One schema violation reported by the external jsonschema crate: the
fields the source reads from the ValidationError it receives. -/
structure SchemaViolation where
  message : String
  instanceText : String
  instancePath : String
  schemaPath : String

/-- Compiled JSON-Schema validator, as consumed by the source through
the external jsonschema crate: validation either passes (none) or
reports a violation.  The source never looks inside a validator. -/
abbrev Validator := JValue → Option SchemaViolation

namespace LibRs

/-- Tool capability of src/lib.rs: the trait object the registry stores.
The run field embeds Tool::run.  The function_name_to_validator method
is embedded as the name_to_validator field; the source promises (and the
generated implementations satisfy) that its keys are exactly the
function names, which the WF predicate below makes explicit. -/
structure RTool (O E : Type) where
  function_names : List String
  name_to_validator : AssocMap Validator
  schema : JsonMap
  run : String → JsonMap → Except E O

/-- Well-formedness of a generated tool: the keys of the validator map
are exactly its function names. -/
def RTool.WF {O E : Type} (t : RTool O E) : Prop :=
  ∀ n, n ∈ mapKeys t.name_to_validator ↔ n ∈ t.function_names

/-- Registry of src/lib.rs, with the merged schema and the global
function-name-to-validator map. -/
structure ToolBox (O E : Type) where
  all_tools : List (RTool O E)
  schema : JsonMap
  tool_name_to_validator : AssocMap Validator

/-- ToolBox::new of src/lib.rs. -/
def ToolBox.new {O E : Type} : ToolBox O E :=
  { all_tools := [], schema := [], tool_name_to_validator := [] }

/-- ToolBox::add_tool of src/lib.rs (lines 33 to 44).  The Rust method
mutates self and returns Result of unit or the rejected tool; it is
embedded as a function from the old state to the new state paired with
the rejected tool when there is one (none means Ok). -/
def ToolBox.add_tool {O E : Type} (tb : ToolBox O E) (tool : RTool O E) :
    ToolBox O E × Option (RTool O E) :=
  if tool.name_to_validator.any
      (fun kv => (lookupKey tb.tool_name_to_validator kv.1).isSome) then
    (tb, some tool)
  else
    ({ all_tools := tb.all_tools ++ [tool],
       schema := mapExtend tb.schema tool.schema,
       tool_name_to_validator :=
         mapExtend tb.tool_name_to_validator tool.name_to_validator },
     none)

/-- FunctionCall of src/lib.rs: the module-private parsed call. -/
structure FunctionCall where
  name : String
  parameters : JsonMap
deriving DecidableEq

/-- ValueToolCallParseError of src/lib.rs (the error_set block at lines
206 to 233). -/
inductive ValueToolCallParseError where
  | MissingName (input : JValue)
  | NameNotAString (input : JValue)
  | MissingParameters (input : JValue)
  | ParametersNotAObject (input : JValue)
  | ToolDoesNotExist (input : JValue) (name : String)
  | DoesNotMatchToolSchema (input : JValue) (issue : String)
deriving DecidableEq

/-- StrToolCallParseError of src/lib.rs: the value-level variants plus
ConversionError for text that is not valid JSON (the serde_json error
payload carries nothing the source ever reads, so it is not modelled). -/
inductive StrToolCallParseError where
  | ConversionError
  | MissingName (input : JValue)
  | NameNotAString (input : JValue)
  | MissingParameters (input : JValue)
  | ParametersNotAObject (input : JValue)
  | ToolDoesNotExist (input : JValue) (name : String)
  | DoesNotMatchToolSchema (input : JValue) (issue : String)
deriving DecidableEq

/-- ValueToolCallError of src/lib.rs: the parse variants plus the Tool
variant wrapping the error returned by the tool itself. -/
inductive ValueToolCallError (E : Type) where
  | Tool (e : E)
  | MissingName (input : JValue)
  | NameNotAString (input : JValue)
  | MissingParameters (input : JValue)
  | ParametersNotAObject (input : JValue)
  | ToolDoesNotExist (input : JValue) (name : String)
  | DoesNotMatchToolSchema (input : JValue) (issue : String)

/-- Coercion generated by error_set from the value parse error into
StrToolCallParseError. -/
def ValueToolCallParseError.toStrParseError :
    ValueToolCallParseError → StrToolCallParseError
  | .MissingName input => .MissingName input
  | .NameNotAString input => .NameNotAString input
  | .MissingParameters input => .MissingParameters input
  | .ParametersNotAObject input => .ParametersNotAObject input
  | .ToolDoesNotExist input name => .ToolDoesNotExist input name
  | .DoesNotMatchToolSchema input issue => .DoesNotMatchToolSchema input issue

/-- Coercion generated by error_set from the value parse error into
ValueToolCallError. -/
def ValueToolCallParseError.toValueError {E : Type} :
    ValueToolCallParseError → ValueToolCallError E
  | .MissingName input => .MissingName input
  | .NameNotAString input => .NameNotAString input
  | .MissingParameters input => .MissingParameters input
  | .ParametersNotAObject input => .ParametersNotAObject input
  | .ToolDoesNotExist input name => .ToolDoesNotExist input name
  | .DoesNotMatchToolSchema input issue => .DoesNotMatchToolSchema input issue

/-- Context string interpolated at src/lib.rs lines 118 to 131 when the
validator reports a violation. -/
def mkSchemaIssue (e : SchemaViolation) : String :=
  "\n                Issue: " ++ e.message ++
  "\n\n                Violation Instance: " ++ e.instanceText ++
  "\n\n                Violation Path: " ++ e.instancePath ++
  "\n\n                Schema Property Violated: " ++ e.schemaPath

/-- ToolBox::get_validator of src/lib.rs. -/
def ToolBox.get_validator {O E : Type} (tb : ToolBox O E) (name : String) :
    Option Validator :=
  lookupKey tb.tool_name_to_validator name

/-- ToolBox::parse_value_tool_call of src/lib.rs (lines 88 to 155).
The two final unreachable branches correspond to the unreachable macro
invocations in the source; they are provably dead because the earlier
field lookups pin the shape of the input. -/
def ToolBox.parse_value_tool_call {O E : Type} (tb : ToolBox O E)
    (input : JValue) : Except ValueToolCallParseError FunctionCall :=
  match input.get "name" with
  | none => .error (.MissingName input)
  | some nameVal =>
    match nameVal.asStr with
    | none => .error (.NameNotAString input)
    | some name =>
      match tb.get_validator name with
      | none => .error (.ToolDoesNotExist input name)
      | some validator =>
        match input.get "parameters" with
        | none => .error (.MissingParameters input)
        | some ps =>
          if ps.isObject then
            match validator ps with
            | some error => .error (.DoesNotMatchToolSchema input (mkSchemaIssue error))
            | none =>
              match input with
              | .obj m =>
                let r1 := removeKey m "name"
                let r2 := removeKey r1.2 "parameters"
                match r1.1, r2.1 with
                | some (.str nm), some (.obj pm) => .ok { name := nm, parameters := pm }
                | _, _ => .error (.MissingName input)
              | _ => .error (.MissingName input)
          else .error (.ParametersNotAObject input)

/-- ToolBox::parse_str_tool_call of src/lib.rs.  The external
serde_json from_str parser is abstracted as the parameter p, with none
meaning the text is not valid JSON. -/
def ToolBox.parse_str_tool_call {O E : Type} (p : String → Option JValue)
    (tb : ToolBox O E) (input : String) :
    Except StrToolCallParseError FunctionCall :=
  match p input with
  | none => .error .ConversionError
  | some value =>
    match tb.parse_value_tool_call value with
    | .ok fc => .ok fc
    | .error e => .error e.toStrParseError

/-- ToolBox::call of src/lib.rs (lines 47 to 61): linear scan over the
registered tools, forwarding to the first tool whose function names
contain the requested name; the none result is the panic branch taken
when no tool matches. -/
def ToolBox.call {O E : Type} (tb : ToolBox O E) (fc : FunctionCall) :
    Option (Except E O) :=
  match tb.all_tools.find? (fun t => t.function_names.contains fc.name) with
  | some tool => some (tool.run fc.name fc.parameters)
  | none => none

/-- ToolBox::call_from_value of src/lib.rs (lines 68 to 72); the outer
none propagates the panic of call. -/
def ToolBox.call_from_value {O E : Type} (tb : ToolBox O E) (v : JValue) :
    Option (Except (ValueToolCallError E) O) :=
  match tb.parse_value_tool_call v with
  | .error e => some (.error e.toValueError)
  | .ok fc =>
    match tb.call fc with
    | some (.ok o) => some (.ok o)
    | some (.error e) => some (.error (.Tool e))
    | none => none

/-- Wrapping of the result of a tool by call_from_value: the Ok value
passes through and the tool error is wrapped in the Tool variant (the
map_err at src/lib.rs line 71). -/
def wrapToolResult {O E : Type} (r : Except E O) : Except (ValueToolCallError E) O :=
  match r with
  | .ok o => .ok o
  | .error e => .error (.Tool e)

/-- All function names registered in a ToolBox, in registration order. -/
def ToolBox.allFunctionNames {O E : Type} (tb : ToolBox O E) : List String :=
  (tb.all_tools.map RTool.function_names).flatten

/-- Registry state reached by registering the given tools in order,
starting from ToolBox::new. -/
def applyAddAll {O E : Type} (ts : List (RTool O E)) : ToolBox O E :=
  ts.foldl (fun tb t => (tb.add_tool t).1) ToolBox.new

end LibRs

namespace ToolboxRs

/-- Modelled from the spec: FunctionCallParsingError is referenced by
src/toolbox.rs but its declaration is not under src; every construction
site in src/toolbox.rs uses a single Parsing variant carrying a
human-readable issue string, matching the EnvelopeError layer of the
spec error taxonomy. -/
inductive FunctionCallParsingError where
  | Parsing (issue : String)
deriving DecidableEq

/-- Modelled from the spec: FunctionCallError is referenced by
src/toolbox.rs and the tests but its declaration is not under src; the
sites in src/toolbox.rs and src/tests/mod.rs construct exactly a
FunctionNotFound variant carrying the function name (the
name-resolution layer of the spec error taxonomy) and a Parsing variant
carrying an issue string (the envelope and parameter-deserialization
layers), with the parsing error converting into it. -/
inductive FunctionCallError where
  | FunctionNotFound (function_name : String)
  | Parsing (issue : String)
deriving DecidableEq

/-- Conversion of the parsing error into FunctionCallError, used by the
question-mark operator in src/toolbox.rs. -/
def FunctionCallParsingError.toFunctionCallError :
    FunctionCallParsingError → FunctionCallError
  | .Parsing issue => .Parsing issue

/-- FunctionCallArgs of src/toolbox.rs (lines 208 to 212). -/
structure FunctionCallArgs where
  function_name : String
  parameters : JsonMap
deriving DecidableEq

/-- Tool capability of src/tool.rs as consumed by src/toolbox.rs: the
call_function field embeds Tool::call_function, whose outer error layer
is a FunctionCallError and whose inner result is the result of the tool
itself.  The await points carry no semantic content in this pure
embedding. -/
structure TTool (O E : Type) where
  function_names : List String
  schema : JsonMap
  call_function : String → JsonMap → Except FunctionCallError (Except E O)

/-- ToolBoxLocal of src/toolbox.rs.  ToolBox of the same file (lines 83
to 154) has a body identical to ToolBoxLocal word for word, differing
only in the Send and Sync bounds on the stored trait objects, which
have no observable effect in this embedding; every theorem about
ToolBoxLocal therefore covers both. -/
structure ToolBoxLocal (O E : Type) where
  all_tools : List (TTool O E)
  schema : JsonMap

/-- ToolBoxLocal::new of src/toolbox.rs. -/
def ToolBoxLocal.new {O E : Type} : ToolBoxLocal O E :=
  { all_tools := [], schema := [] }

/-- ToolBoxLocal::add_tool of src/toolbox.rs (lines 26 to 37), also
ToolBox::add_tool (lines 102 to 113): reject when any existing function
name equals any function name of the candidate, otherwise extend the
schema and push the tool.  Embedded as old state to new state paired
with the rejected tool when there is one. -/
def ToolBoxLocal.add_tool {O E : Type} (tb : ToolBoxLocal O E)
    (tool : TTool O E) : ToolBoxLocal O E × Option (TTool O E) :=
  if tb.all_tools.any (fun t =>
      t.function_names.any (fun existing => tool.function_names.contains existing)) then
    (tb, some tool)
  else
    ({ all_tools := tb.all_tools ++ [tool],
       schema := mapExtend tb.schema tool.schema },
     none)

/-- into_function_call_from_value of src/toolbox.rs (lines 168 to 206).
The final unreachable branches correspond to the unwrap_match panics of
the source, provably dead because the earlier field lookups pin the
shape of the input. -/
def into_function_call_from_value (input : JValue) :
    Except FunctionCallParsingError FunctionCallArgs :=
  match input.get "function_name" with
  | none =>
    .error (.Parsing ("The tool call is missing the `function_name` field in:\n"
      ++ input.render))
  | some nameVal =>
    match nameVal.asStr with
    | none =>
      .error (.Parsing ("The tool call `function_name` field is not a string in:\n"
        ++ input.render))
    | some _ =>
      match input.get "parameters" with
      | none =>
        .error (.Parsing ("The tool call is missing the `parameters` field in:\n"
          ++ input.render))
      | some ps =>
        if ps.isObject then
          match input with
          | .obj m =>
            let r1 := removeKey m "function_name"
            let r2 := removeKey r1.2 "parameters"
            match r1.1, r2.1 with
            | some (.str nm), some (.obj pm) =>
              .ok { function_name := nm, parameters := pm }
            | _, _ =>
              .error (.Parsing ("The tool call is missing the `function_name` field in:\n"
                ++ input.render))
          | _ =>
            .error (.Parsing ("The tool call is missing the `function_name` field in:\n"
              ++ input.render))
        else
          .error (.Parsing ("The tool call `parameters` field is not an object in:\n"
            ++ input.render))

/-- into_function_call_from_str of src/toolbox.rs (lines 158 to 166).
The external serde_json from_str parser is abstracted as the parameter
p, with none meaning the text is not valid JSON. -/
def into_function_call_from_str (p : String → Option JValue) (input : String) :
    Except FunctionCallParsingError FunctionCallArgs :=
  match p input with
  | none => .error (.Parsing "The tool call is not valid json")
  | some value => into_function_call_from_value value

/-- ToolBoxLocal::call_from_args of src/toolbox.rs (lines 51 to 65),
also ToolBox::call_from_args (lines 127 to 141): linear scan over the
registered tools, forwarding to the first tool whose function names
contain the requested name (the map_err on the forwarded result is the
identity conversion of FunctionCallError into itself), and
FunctionNotFound when no tool matches. -/
def ToolBoxLocal.call_from_args {O E : Type} (tb : ToolBoxLocal O E)
    (fc : FunctionCallArgs) : Except FunctionCallError (Except E O) :=
  match tb.all_tools.find? (fun t => t.function_names.contains fc.function_name) with
  | some tool => tool.call_function fc.function_name fc.parameters
  | none => .error (.FunctionNotFound fc.function_name)

/-- ToolBoxLocal::call_from_value of src/toolbox.rs (lines 40 to 43),
also ToolBox::call_from_value (lines 116 to 119). -/
def ToolBoxLocal.call_from_value {O E : Type} (tb : ToolBoxLocal O E)
    (v : JValue) : Except FunctionCallError (Except E O) :=
  match into_function_call_from_value v with
  | .error e => .error e.toFunctionCallError
  | .ok fc => tb.call_from_args fc

/-- ToolBoxLocal::call_from_str of src/toolbox.rs (lines 46 to 49),
also ToolBox::call_from_str (lines 122 to 125). -/
def ToolBoxLocal.call_from_str {O E : Type} (p : String → Option JValue)
    (tb : ToolBoxLocal O E) (s : String) : Except FunctionCallError (Except E O) :=
  match into_function_call_from_str p s with
  | .error e => .error e.toFunctionCallError
  | .ok fc => tb.call_from_args fc

/-- All function names registered in a ToolBoxLocal, in registration
order. -/
def ToolBoxLocal.allFunctionNames {O E : Type} (tb : ToolBoxLocal O E) :
    List String :=
  (tb.all_tools.map TTool.function_names).flatten

/-- Registry state reached by registering the given tools in order,
starting from ToolBoxLocal::new. -/
def applyAddAll {O E : Type} (ts : List (TTool O E)) : ToolBoxLocal O E :=
  ts.foldl (fun tb t => (tb.add_tool t).1) ToolBoxLocal.new

end ToolboxRs

section Fixtures

/-- Parameter schema of the greet function of the test tool
(src/tests/mod.rs): an object with a required string field greeting. -/
def greetParamSchema : JValue :=
  .obj [("type", .str "object"),
        ("properties", .obj [("greeting",
          .obj [("type", .str "string"),
                ("description", .str "The greeting to give")])]),
        ("required", .arr [.str "greeting"])]

/-- Behaviour of the compiled validator of greetParamSchema, the
fixture validator used by concrete witnesses: pass exactly when the
value is an object whose greeting field is a string. -/
def greetValidator : Validator := fun v =>
  match v with
  | .obj fields =>
    match lookupKey fields "greeting" with
    | some (.str _) => none
    | some _ => some { message := "type mismatch for `greeting`",
                       instanceText := "", instancePath := "/greeting",
                       schemaPath := "/properties/greeting/type" }
    | none => some { message := "`greeting` is a required property",
                     instanceText := "", instancePath := "",
                     schemaPath := "/required" }
  | _ => some { message := "not an object", instanceText := "",
                instancePath := "", schemaPath := "/type" }

/-- Merged schema document of the test tool, keyed like the generated
schemas of src/tests/mod.rs (a draft marker plus a oneOf list). -/
def greetSchema : JsonMap :=
  [("$schema", .str "http://json-schema.org/draft-07/schema#"),
   ("oneOf", .arr [.obj [("type", .str "object"),
     ("properties", .obj [("function_name", .obj [("const", .str "greet")]),
       ("parameters", greetParamSchema)])]])]

/-- Fixture tool for the lib.rs registry: one function named greet. -/
def greetRTool : LibRs.RTool String String :=
  { function_names := ["greet"],
    name_to_validator := [("greet", greetValidator)],
    schema := greetSchema,
    run := fun _ ps =>
      match lookupKey ps "greeting" with
      | some (.str g) => .ok ("This is the greeting `" ++ g ++ "`")
      | _ => .error "missing greeting" }

/-- Second fixture tool for the lib.rs registry: one function named
farewell, with a schema key disjoint from greetSchema. -/
def farewellRTool : LibRs.RTool String String :=
  { function_names := ["farewell"],
    name_to_validator := [("farewell", fun _ => none)],
    schema := [("farewellOneOf", .arr [])],
    run := fun _ _ => .ok "Goodbye!" }

/-- Fixture tool for the toolbox.rs registry: one function named greet. -/
def greetTTool : ToolboxRs.TTool String String :=
  { function_names := ["greet"],
    schema := greetSchema,
    call_function := fun _ ps =>
      match lookupKey ps "greeting" with
      | some (.str g) => .ok (.ok ("This is the greeting `" ++ g ++ "`"))
      | _ => .error (.Parsing "Missing `greeting` param") }

/-- Second fixture tool for the toolbox.rs registry: disjoint function
name but a schema sharing the $schema key with greetSchema, the shape
every generated tool schema has. -/
def farewellTTool : ToolboxRs.TTool String String :=
  { function_names := ["farewell"],
    schema := [("$schema", .str "http://json-schema.org/draft-07/schema#"),
               ("oneOf", .arr [.obj [("type", .str "object"),
                 ("properties", .obj [("function_name",
                   .obj [("const", .str "farewell")])])]])],
    call_function := fun _ _ => .ok (.ok "Goodbye!") }

/-- Concrete lib.rs registry holding the greet fixture tool. -/
def greetToolBox : LibRs.ToolBox String String :=
  (LibRs.ToolBox.new.add_tool greetRTool).1

/-- Concrete toolbox.rs registry holding the greet fixture tool. -/
def greetLocalBox : ToolboxRs.ToolBoxLocal String String :=
  (ToolboxRs.ToolBoxLocal.new.add_tool greetTTool).1

/-- Concrete toolbox.rs registry holding both fixture tools. -/
def greetFarewellBox : ToolboxRs.ToolBoxLocal String String :=
  (greetLocalBox.add_tool farewellTTool).1

end Fixtures

/-- Disjointness of the function names of the registered tools, as
preserved by add_tool. -/
def ToolboxRs.NamesDisjoint {O E : Type} (tb : ToolboxRs.ToolBoxLocal O E) : Prop :=
  List.Pairwise (fun a b : ToolboxRs.TTool O E =>
    ∀ n, n ∈ a.function_names → n ∉ b.function_names) tb.all_tools

/-- Agreement of the registry validator map with the registered
function names: the invariant tying lookup to membership. -/
def LibRs.KeysMatch {O E : Type} (tb : LibRs.ToolBox O E) : Prop :=
  ∀ n, (lookupKey tb.tool_name_to_validator n).isSome ↔ n ∈ tb.allFunctionNames

/-- Lookup after insert: the inserted key reads back the inserted
value, every other key is untouched. -/
theorem lookupKey_mapInsert {α : Type} (m : AssocMap α) (k : String) (v : α)
    (k2 : String) :
    lookupKey (mapInsert m k v) k2 = if k2 = k then some v else lookupKey m k2 := by
  induction m with
  | nil =>
    by_cases h : k2 = k
    · subst h
      simp [mapInsert, lookupKey]
    · have hs : ¬ k = k2 := fun hc => h hc.symm
      simp [mapInsert, lookupKey, h, hs]
  | cons kv rest ih =>
    obtain ⟨k1, v1⟩ := kv
    by_cases h1 : k1 = k
    · subst h1
      by_cases h2 : k2 = k1
      · subst h2
        simp [mapInsert, lookupKey]
      · have hs : ¬ k1 = k2 := fun hc => h2 hc.symm
        simp [mapInsert, lookupKey, h2, hs]
    · by_cases h2 : k1 = k2
      · subst h2
        simp [mapInsert, lookupKey, h1]
      · simp [mapInsert, lookupKey, h1, h2, ih]

/-- Membership in the extended map is membership in either map. -/
theorem isSome_lookupKey_mapExtend {α : Type} (o : AssocMap α) (k : String) :
    ∀ m, (lookupKey (mapExtend m o) k).isSome =
      ((lookupKey m k).isSome || (lookupKey o k).isSome) := by
  induction o with
  | nil =>
    intro m
    simp [mapExtend, lookupKey]
  | cons kv rest ih =>
    obtain ⟨a, b⟩ := kv
    intro m
    show (lookupKey (mapExtend (mapInsert m a b) rest) k).isSome = _
    rw [ih (mapInsert m a b), lookupKey_mapInsert]
    by_cases h : k = a
    · subst h
      simp [lookupKey]
    · have hs : ¬ a = k := fun hc => h hc.symm
      simp [lookupKey, h, hs]

/-- Extension by a map that misses a key does not change the lookup of
that key. -/
theorem lookupKey_mapExtend_not_mem {α : Type} (o : AssocMap α) (k : String) :
    k ∉ mapKeys o → ∀ m, lookupKey (mapExtend m o) k = lookupKey m k := by
  induction o with
  | nil =>
    intro _ m
    rfl
  | cons kv rest ih =>
    obtain ⟨a, b⟩ := kv
    intro h m
    simp only [mapKeys, List.map_cons, List.mem_cons] at h
    push_neg at h
    show lookupKey (mapExtend (mapInsert m a b) rest) k = _
    rw [ih (by simpa [mapKeys] using h.2) (mapInsert m a b), lookupKey_mapInsert,
      if_neg h.1]

/-- Extension by a map with unique keys overrides every key of that
map with the value it holds there. -/
theorem lookupKey_mapExtend_mem {α : Type} (o : AssocMap α) (k : String) :
    (mapKeys o).Nodup → k ∈ mapKeys o →
    ∀ m, lookupKey (mapExtend m o) k = lookupKey o k := by
  induction o with
  | nil =>
    intro _ h
    simp [mapKeys] at h
  | cons kv rest ih =>
    obtain ⟨a, b⟩ := kv
    intro hnd h m
    simp only [mapKeys, List.map_cons, List.nodup_cons] at hnd
    show lookupKey (mapExtend (mapInsert m a b) rest) k = _
    by_cases hk : k = a
    · subst hk
      rw [lookupKey_mapExtend_not_mem rest k (by simpa [mapKeys] using hnd.1)
        (mapInsert m k b), lookupKey_mapInsert]
      simp [lookupKey]
    · simp only [mapKeys, List.map_cons, List.mem_cons] at h
      rcases h with h | h
      · exact absurd h hk
      · have hs : ¬ a = k := fun hc => hk hc.symm
        rw [ih hnd.2 (by simpa [mapKeys] using h) (mapInsert m a b)]
        simp [lookupKey, hs]

/-- Removal returns the looked-up value as its first component. -/
theorem removeKey_fst (m : JsonMap) (k : String) :
    (removeKey m k).1 = lookupKey m k := by
  induction m with
  | nil => rfl
  | cons kv rest ih =>
    obtain ⟨k1, v⟩ := kv
    by_cases h : k1 = k
    · simp [removeKey, lookupKey, h]
    · simp [removeKey, lookupKey, h, ih]

/-- Removal of one key does not change the lookup of a different key. -/
theorem lookupKey_removeKey_ne (m : JsonMap) (k k2 : String) (h : k2 ≠ k) :
    lookupKey (removeKey m k).2 k2 = lookupKey m k2 := by
  induction m with
  | nil => rfl
  | cons kv rest ih =>
    obtain ⟨k1, v⟩ := kv
    by_cases h1 : k1 = k
    · subst h1
      have hs : ¬ k1 = k2 := fun hc => h hc.symm
      simp [removeKey, lookupKey, hs]
    · by_cases h2 : k1 = k2
      · subst h2
        simp [removeKey, lookupKey, h1]
      · simp [removeKey, lookupKey, h1, h2, ih]

/-- Membership in the registered function names is membership in the
names of some registered tool. -/
theorem ToolboxRs.mem_allFunctionNames {O E : Type}
    (tb : ToolboxRs.ToolBoxLocal O E) (n : String) :
    n ∈ tb.allFunctionNames ↔ ∃ t ∈ tb.all_tools, n ∈ t.function_names := by
  simp [ToolboxRs.ToolBoxLocal.allFunctionNames, List.mem_flatten]

/-- The collision test of add_tool is true exactly when some function
name of the candidate is already registered. -/
theorem ToolboxRs.add_tool_cond {O E : Type} (tb : ToolboxRs.ToolBoxLocal O E)
    (tool : ToolboxRs.TTool O E) :
    (tb.all_tools.any (fun t =>
      t.function_names.any (fun existing => tool.function_names.contains existing))
        = true)
      ↔ ∃ n ∈ tool.function_names, n ∈ tb.allFunctionNames := by
  simp only [List.any_eq_true, ToolboxRs.mem_allFunctionNames]
  constructor
  · rintro ⟨t, ht, n, hn, hc⟩
    exact ⟨n, by simpa [List.elem_iff] using hc, t, ht, hn⟩
  · rintro ⟨n, hn, t, ht, hmem⟩
    exact ⟨t, ht, n, hmem, by simpa [List.elem_iff] using hn⟩

/-- Success and failure of add_tool, stated through the collision
condition. -/
theorem ToolboxRs.add_tool_eq {O E : Type} (tb : ToolboxRs.ToolBoxLocal O E)
    (tool : ToolboxRs.TTool O E) :
    tb.add_tool tool =
      if ∃ n ∈ tool.function_names, n ∈ tb.allFunctionNames then (tb, some tool)
      else ({ all_tools := tb.all_tools ++ [tool],
              schema := mapExtend tb.schema tool.schema }, none) := by
  rw [ToolboxRs.ToolBoxLocal.add_tool]
  by_cases h : ∃ n ∈ tool.function_names, n ∈ tb.allFunctionNames
  · rw [if_pos ((ToolboxRs.add_tool_cond tb tool).2 h), if_pos h]
  · rw [if_neg (fun hc => h ((ToolboxRs.add_tool_cond tb tool).1 hc)), if_neg h]

/-- One add_tool step preserves the disjointness invariant. -/
theorem ToolboxRs.add_tool_preserves {O E : Type}
    (tb : ToolboxRs.ToolBoxLocal O E) (t : ToolboxRs.TTool O E)
    (h : ToolboxRs.NamesDisjoint tb) : ToolboxRs.NamesDisjoint (tb.add_tool t).1 := by
  rw [ToolboxRs.add_tool_eq]
  by_cases hc : ∃ n ∈ t.function_names, n ∈ tb.allFunctionNames
  · rw [if_pos hc]
    exact h
  · rw [if_neg hc]
    push_neg at hc
    refine (List.pairwise_append).2 ⟨h, List.pairwise_singleton _ _, ?_⟩
    intro a ha b hb n hna
    rw [List.mem_singleton] at hb
    subst hb
    intro hnb
    exact hc n hnb ((ToolboxRs.mem_allFunctionNames tb n).2 ⟨a, ha, hna⟩)

/-- Every state reached from new by add_tool calls satisfies the
disjointness invariant. -/
theorem ToolboxRs.applyAddAll_disjoint {O E : Type} (ts : List (ToolboxRs.TTool O E)) :
    ToolboxRs.NamesDisjoint (ToolboxRs.applyAddAll ts) := by
  have h : ∀ (ts : List (ToolboxRs.TTool O E)) (tb : ToolboxRs.ToolBoxLocal O E),
      ToolboxRs.NamesDisjoint tb →
      ToolboxRs.NamesDisjoint (ts.foldl (fun tb t => (tb.add_tool t).1) tb) := by
    intro ts
    induction ts with
    | nil => intro tb htb; exact htb
    | cons t rest ih =>
      intro tb htb
      exact ih _ (ToolboxRs.add_tool_preserves tb t htb)
  exact h ts ToolboxRs.ToolBoxLocal.new (List.Pairwise.nil)

/-- Lookup succeeds exactly on the keys of the map. -/
theorem isSome_lookupKey_iff_mem {α : Type} (m : AssocMap α) (k : String) :
    (lookupKey m k).isSome ↔ k ∈ mapKeys m := by
  induction m with
  | nil => simp [lookupKey, mapKeys]
  | cons kv rest ih =>
    obtain ⟨k1, v⟩ := kv
    by_cases h : k1 = k
    · subst h
      simp [lookupKey, mapKeys]
    · have hs : ¬ k = k1 := fun hc => h hc.symm
      simp [lookupKey, mapKeys, h, hs, ih]

/-- Membership in the registered function names is membership in the
names of some registered tool. -/
theorem LibRs.mem_registryFunctionNames {O E : Type} (tb : LibRs.ToolBox O E)
    (n : String) :
    n ∈ tb.allFunctionNames ↔ ∃ t ∈ tb.all_tools, n ∈ t.function_names := by
  simp [LibRs.ToolBox.allFunctionNames, List.mem_flatten]

/-- The collision test of the lib.rs add_tool is true exactly when some
key of the validator map of the candidate is already a key of the
registry validator map. -/
theorem LibRs.add_tool_collision_cond {O E : Type} (tb : LibRs.ToolBox O E)
    (tool : LibRs.RTool O E) :
    (tool.name_to_validator.any
      (fun kv => (lookupKey tb.tool_name_to_validator kv.1).isSome) = true)
      ↔ ∃ k ∈ mapKeys tool.name_to_validator,
          (lookupKey tb.tool_name_to_validator k).isSome := by
  simp only [List.any_eq_true, mapKeys, List.mem_map]
  constructor
  · rintro ⟨kv, hkv, hs⟩
    exact ⟨kv.1, ⟨kv, hkv, rfl⟩, by simpa using hs⟩
  · rintro ⟨k, ⟨kv, hkv, hk⟩, hs⟩
    subst hk
    exact ⟨kv, hkv, by simpa using hs⟩

/-- Success and failure of the lib.rs add_tool, stated through the
collision condition. -/
theorem LibRs.add_tool_cases {O E : Type} (tb : LibRs.ToolBox O E)
    (tool : LibRs.RTool O E) :
    tb.add_tool tool =
      if ∃ k ∈ mapKeys tool.name_to_validator,
          (lookupKey tb.tool_name_to_validator k).isSome then (tb, some tool)
      else ({ all_tools := tb.all_tools ++ [tool],
              schema := mapExtend tb.schema tool.schema,
              tool_name_to_validator :=
                mapExtend tb.tool_name_to_validator tool.name_to_validator },
            none) := by
  rw [LibRs.ToolBox.add_tool]
  by_cases h : ∃ k ∈ mapKeys tool.name_to_validator,
      (lookupKey tb.tool_name_to_validator k).isSome
  · rw [if_pos ((LibRs.add_tool_collision_cond tb tool).2 h), if_pos h]
  · rw [if_neg (fun hc => h ((LibRs.add_tool_collision_cond tb tool).1 hc)), if_neg h]

/-- One add_tool step with a well formed tool preserves the key
agreement invariant. -/
theorem LibRs.add_tool_preserves_keysMatch {O E : Type} (tb : LibRs.ToolBox O E)
    (t : LibRs.RTool O E) (htool : t.WF) (h : LibRs.KeysMatch tb) :
    LibRs.KeysMatch (tb.add_tool t).1 := by
  rw [LibRs.add_tool_cases]
  by_cases hc : ∃ k ∈ mapKeys t.name_to_validator,
      (lookupKey tb.tool_name_to_validator k).isSome
  · rw [if_pos hc]
    exact h
  · rw [if_neg hc]
    intro n
    show (lookupKey (mapExtend tb.tool_name_to_validator t.name_to_validator) n).isSome
      ↔ _
    rw [Option.isSome_iff_exists] at *
    rw [← Option.isSome_iff_exists, isSome_lookupKey_mapExtend]
    constructor
    · intro hor
      rcases Bool.or_eq_true_iff.1 hor with hl | hr
      · have := (h n).1 hl
        rw [LibRs.mem_registryFunctionNames] at this
        obtain ⟨tl, htl, hmem⟩ := this
        exact (LibRs.mem_registryFunctionNames _ n).2 ⟨tl, by simp [htl], hmem⟩
      · have : n ∈ mapKeys t.name_to_validator :=
          (isSome_lookupKey_iff_mem _ n).1 hr
        have : n ∈ t.function_names := (htool n).1 this
        exact (LibRs.mem_registryFunctionNames _ n).2 ⟨t, by simp, this⟩
    · intro hmem
      rw [LibRs.mem_registryFunctionNames] at hmem
      obtain ⟨tl, htl, hmem2⟩ := hmem
      simp only [List.mem_append, List.mem_singleton] at htl
      rcases htl with htl | htl
      · exact Bool.or_eq_true_iff.2 (Or.inl ((h n).2
          ((LibRs.mem_registryFunctionNames tb n).2 ⟨tl, htl, hmem2⟩)))
      · subst htl
        exact Bool.or_eq_true_iff.2 (Or.inr ((isSome_lookupKey_iff_mem _ n).2
          ((htool n).2 hmem2)))

/-- Every state reached from new by add_tool calls with well formed
tools satisfies the key agreement invariant. -/
theorem LibRs.applyAddAll_keysMatch {O E : Type} (ts : List (LibRs.RTool O E))
    (hwf : ∀ t ∈ ts, t.WF) : LibRs.KeysMatch (LibRs.applyAddAll ts) := by
  have h : ∀ (ts : List (LibRs.RTool O E)), (∀ t ∈ ts, t.WF) →
      ∀ (tb : LibRs.ToolBox O E), LibRs.KeysMatch tb →
      LibRs.KeysMatch (ts.foldl (fun tb t => (tb.add_tool t).1) tb) := by
    intro ts
    induction ts with
    | nil => intro _ tb htb; exact htb
    | cons t rest ih =>
      intro hwf2 tb htb
      exact ih (fun x hx => hwf2 x (by simp [hx])) _
        (LibRs.add_tool_preserves_keysMatch tb t (hwf2 t (by simp)) htb)
  refine h ts hwf LibRs.ToolBox.new ?_
  intro n
  simp [LibRs.ToolBox.new, lookupKey, LibRs.ToolBox.allFunctionNames]

/-- Parse error when the name field is absent (also the shape every
value that is not an object takes, since the field access of a
non-object yields none). -/
theorem LibRs.parse_missing_name {O E : Type} (tb : LibRs.ToolBox O E)
    (input : JValue) (h : input.get "name" = none) :
    tb.parse_value_tool_call input = .error (.MissingName input) := by
  unfold LibRs.ToolBox.parse_value_tool_call
  rw [h]

/-- Parse error when the name field is not a string. -/
theorem LibRs.parse_name_not_string {O E : Type} (tb : LibRs.ToolBox O E)
    (input nv : JValue) (h1 : input.get "name" = some nv) (h2 : nv.asStr = none) :
    tb.parse_value_tool_call input = .error (.NameNotAString input) := by
  unfold LibRs.ToolBox.parse_value_tool_call
  rw [h1]
  simp only [h2]

/-- Parse error when the name resolves to no registered validator: it
fires before the parameters field is even looked at. -/
theorem LibRs.parse_unknown_name {O E : Type} (tb : LibRs.ToolBox O E)
    (input nv : JValue) (n : String) (h1 : input.get "name" = some nv)
    (h2 : nv.asStr = some n) (h3 : tb.get_validator n = none) :
    tb.parse_value_tool_call input = .error (.ToolDoesNotExist input n) := by
  unfold LibRs.ToolBox.parse_value_tool_call
  rw [h1]
  simp only [h2, h3]

/-- Parse error when the parameters field is absent. -/
theorem LibRs.parse_missing_parameters {O E : Type} (tb : LibRs.ToolBox O E)
    (input nv : JValue) (n : String) (val : Validator)
    (h1 : input.get "name" = some nv) (h2 : nv.asStr = some n)
    (h3 : tb.get_validator n = some val) (h4 : input.get "parameters" = none) :
    tb.parse_value_tool_call input = .error (.MissingParameters input) := by
  unfold LibRs.ToolBox.parse_value_tool_call
  rw [h1]
  simp only [h2, h3, h4]

/-- Parse error when the parameters field is not an object. -/
theorem LibRs.parse_parameters_not_object {O E : Type} (tb : LibRs.ToolBox O E)
    (input nv ps : JValue) (n : String) (val : Validator)
    (h1 : input.get "name" = some nv) (h2 : nv.asStr = some n)
    (h3 : tb.get_validator n = some val) (h4 : input.get "parameters" = some ps)
    (h5 : ps.isObject = false) :
    tb.parse_value_tool_call input = .error (.ParametersNotAObject input) := by
  unfold LibRs.ToolBox.parse_value_tool_call
  rw [h1]
  simp only [h2, h3, h4, h5]
  simp

/-- Parse error when the validator reports a violation: the error
carries the interpolated issue context. -/
theorem LibRs.parse_schema_mismatch {O E : Type} (tb : LibRs.ToolBox O E)
    (input nv ps : JValue) (n : String) (val : Validator) (w : SchemaViolation)
    (h1 : input.get "name" = some nv) (h2 : nv.asStr = some n)
    (h3 : tb.get_validator n = some val) (h4 : input.get "parameters" = some ps)
    (h5 : ps.isObject = true) (h6 : val ps = some w) :
    tb.parse_value_tool_call input =
      .error (.DoesNotMatchToolSchema input (LibRs.mkSchemaIssue w)) := by
  unfold LibRs.ToolBox.parse_value_tool_call
  rw [h1]
  simp only [h2, h3, h4, h5, if_true, h6]

/-- Successful parse of an object whose first name binding is the
string n, whose validator exists and whose first parameters binding is
an object passing that validator. -/
theorem LibRs.parse_ok {O E : Type} (tb : LibRs.ToolBox O E) (m : JsonMap)
    (n : String) (val : Validator) (p : JsonMap)
    (hname : lookupKey m "name" = some (.str n))
    (hval : tb.get_validator n = some val)
    (hparams : lookupKey m "parameters" = some (.obj p))
    (haccept : val (.obj p) = none) :
    tb.parse_value_tool_call (.obj m) = .ok { name := n, parameters := p } := by
  unfold LibRs.ToolBox.parse_value_tool_call
  have hget : (JValue.obj m).get "name" = some (.str n) := hname
  have hget2 : (JValue.obj m).get "parameters" = some (.obj p) := hparams
  rw [hget]
  simp only [JValue.asStr, hval, hget2, JValue.isObject, if_true, haccept]
  have e1 : (removeKey m "name").1 = some (JValue.str n) :=
    (removeKey_fst m "name").trans hname
  have e2 : (removeKey (removeKey m "name").2 "parameters").1 = some (JValue.obj p) :=
    (removeKey_fst _ "parameters").trans
      ((lookupKey_removeKey_ne m "name" "parameters" (by decide)).trans hparams)
  simp only [e1, e2]

/-- Inversion of a successful parse: the input is an object, its first
name binding is the parsed name as a string, the parsed name has a
registered validator, the first parameters binding is exactly the
parsed parameters object, and that object passed the validator. -/
theorem LibRs.parse_ok_inv {O E : Type} (tb : LibRs.ToolBox O E) (input : JValue)
    (fc : LibRs.FunctionCall) (h : tb.parse_value_tool_call input = .ok fc) :
    ∃ m val, input = .obj m ∧
      lookupKey m "name" = some (.str fc.name) ∧
      tb.get_validator fc.name = some val ∧
      lookupKey m "parameters" = some (.obj fc.parameters) ∧
      val (.obj fc.parameters) = none := by
  cases input with
  | null => simp [LibRs.ToolBox.parse_value_tool_call, JValue.get] at h
  | bool b => simp [LibRs.ToolBox.parse_value_tool_call, JValue.get] at h
  | num n2 => simp [LibRs.ToolBox.parse_value_tool_call, JValue.get] at h
  | str s => simp [LibRs.ToolBox.parse_value_tool_call, JValue.get] at h
  | arr xs => simp [LibRs.ToolBox.parse_value_tool_call, JValue.get] at h
  | obj fields =>
    unfold LibRs.ToolBox.parse_value_tool_call at h
    split at h
    · exact absurd h (by simp)
    next nameVal hname =>
      split at h
      · exact absurd h (by simp)
      next name hstr =>
        split at h
        · exact absurd h (by simp)
        next validator hval =>
          split at h
          · exact absurd h (by simp)
          next ps hps =>
            split at h
            · split at h
              · exact absurd h (by simp)
              next hacc =>
                simp only [] at h
                split at h
                next nm pm e1 e2 =>
                  injection h with h2
                  subst h2
                  have hlook : lookupKey fields "name" = some (JValue.str nm) :=
                    (removeKey_fst fields "name").symm.trans e1
                  have hlook2 : lookupKey fields "parameters" = some (JValue.obj pm) := by
                    rw [← lookupKey_removeKey_ne fields "name" "parameters" (by decide),
                      ← removeKey_fst]
                    exact e2
                  have hnv : nameVal = JValue.str nm := by
                    have hx : some nameVal = some (JValue.str nm) := by
                      rw [← hname]; exact hlook
                    exact Option.some.inj hx
                  have hns : name = nm := by
                    rw [hnv] at hstr
                    exact (Option.some.inj hstr).symm
                  have hpsv : ps = JValue.obj pm := by
                    have hx : some ps = some (JValue.obj pm) := by
                      rw [← hps]; exact hlook2
                    exact Option.some.inj hx
                  refine ⟨fields, validator, rfl, hlook, ?_, hlook2, ?_⟩
                  · rw [show ({ name := nm, parameters := pm } :
                        LibRs.FunctionCall).name = nm from rfl, ← hns]
                    exact hval
                  · rw [show ({ name := nm, parameters := pm } :
                        LibRs.FunctionCall).parameters = pm from rfl, ← hpsv]
                    exact hacc
                next e1 e2 => exact absurd h (by simp)
            · exact absurd h (by simp)

/-- The panic branch of the lib.rs call is taken exactly when the name
of the function call is not a registered function name. -/
theorem LibRs.call_eq_none_iff {O E : Type} (tb : LibRs.ToolBox O E)
    (fc : LibRs.FunctionCall) :
    tb.call fc = none ↔ fc.name ∉ tb.allFunctionNames := by
  unfold LibRs.ToolBox.call
  cases hf : tb.all_tools.find? (fun t => t.function_names.contains fc.name) with
  | none =>
    rw [List.find?_eq_none] at hf
    simp only []
    constructor
    · intro _
      rw [LibRs.mem_registryFunctionNames]
      rintro ⟨t, ht, hmem⟩
      exact hf t ht (by simpa [List.elem_iff] using hmem)
    · intro _
      trivial
  | some tool =>
    have hcont := List.find?_some hf
    have hmemt := List.mem_of_find?_eq_some hf
    have hmem : fc.name ∈ tb.allFunctionNames :=
      (LibRs.mem_registryFunctionNames tb fc.name).2
        ⟨tool, hmemt, by simpa [List.elem_iff] using hcont⟩
    simp only []
    constructor
    · intro hnone
      exact absurd hnone (by simp)
    · intro hnot
      exact absurd hmem hnot

/-- The lib.rs call forwards to the first matching tool. -/
theorem LibRs.call_found {O E : Type} (tb : LibRs.ToolBox O E)
    (fc : LibRs.FunctionCall) (tool : LibRs.RTool O E)
    (h : tb.all_tools.find? (fun t => t.function_names.contains fc.name) = some tool) :
    tb.call fc = some (tool.run fc.name fc.parameters) := by
  unfold LibRs.ToolBox.call
  rw [h]

/-- C1: in every ToolBoxLocal state reachable from new by add_tool
calls, the function-name sets of the registered tools are pairwise
disjoint; add_tool on such a state succeeds exactly when no function
name of the candidate is already registered, and on a collision it
fails returning the candidate with the state unchanged. -/
theorem add_tool_disjointness_invariant {O E : Type}
    (ts : List (ToolboxRs.TTool O E)) (t : ToolboxRs.TTool O E) :
    ToolboxRs.NamesDisjoint (ToolboxRs.applyAddAll ts)
    ∧ (((ToolboxRs.applyAddAll ts).add_tool t).2 = none ↔
        ∀ n ∈ t.function_names, n ∉ (ToolboxRs.applyAddAll ts).allFunctionNames)
    ∧ ((∃ n ∈ t.function_names, n ∈ (ToolboxRs.applyAddAll ts).allFunctionNames) →
        (ToolboxRs.applyAddAll ts).add_tool t = (ToolboxRs.applyAddAll ts, some t)) := by
  refine ⟨ToolboxRs.applyAddAll_disjoint ts, ?_, ?_⟩
  · rw [ToolboxRs.add_tool_eq]
    by_cases h : ∃ n ∈ t.function_names,
        n ∈ (ToolboxRs.applyAddAll ts).allFunctionNames
    · rw [if_pos h]
      constructor
      · intro hc
        exact absurd hc (by simp)
      · intro hall
        obtain ⟨n, hn, hmem⟩ := h
        exact absurd hmem (hall n hn)
    · rw [if_neg h]
      push_neg at h
      exact ⟨fun _ => h, fun _ => rfl⟩
  · intro h
    rw [ToolboxRs.add_tool_eq, if_pos h]

/-- Concrete instance of add_tool_disjointness_invariant: after
registering the greet fixture, registering it again is rejected with
the registry returned unchanged, while a tool with a fresh name is
accepted. -/
theorem add_tool_disjointness_invariant_witness :
    (ToolboxRs.applyAddAll [greetTTool]).add_tool greetTTool
        = (ToolboxRs.applyAddAll [greetTTool], some greetTTool)
    ∧ (((ToolboxRs.applyAddAll [greetTTool]).add_tool farewellTTool).2 = none ↔
        ∀ n ∈ farewellTTool.function_names,
          n ∉ (ToolboxRs.applyAddAll [greetTTool]).allFunctionNames) :=
  ⟨(add_tool_disjointness_invariant [greetTTool] greetTTool).2.2
      ⟨"greet", by decide, by decide⟩,
    (add_tool_disjointness_invariant [greetTTool] farewellTTool).2.1⟩

/-- C2: rejection is atomic in both generations of the registry.  For
toolbox.rs the statement is unconditional over every state; for lib.rs
the collision check reads the validator map, so the statement covers
the states actually constructible in the program (reached from new by
add_tool calls with tools whose validator keys are their function
names, which is what the code generation produces) and on them a
function-name collision returns the rejected tool with the tool list,
the schema document and the name-to-validator map all unchanged. -/
theorem add_tool_rejection_atomic {O E : Type} :
    (∀ (tb : ToolboxRs.ToolBoxLocal O E) (t : ToolboxRs.TTool O E),
      (∃ n ∈ t.function_names, n ∈ tb.allFunctionNames) →
      tb.add_tool t = (tb, some t))
    ∧ (∀ (ts : List (LibRs.RTool O E)) (t : LibRs.RTool O E),
        (∀ t2 ∈ ts, t2.WF) → t.WF →
        (∃ n ∈ t.function_names, n ∈ (LibRs.applyAddAll ts).allFunctionNames) →
        (LibRs.applyAddAll ts).add_tool t = (LibRs.applyAddAll ts, some t)) := by
  constructor
  · intro tb t h
    rw [ToolboxRs.add_tool_eq, if_pos h]
  · intro ts t hwf htwf h
    obtain ⟨n, hn, hmem⟩ := h
    have hcond : ∃ k ∈ mapKeys t.name_to_validator,
        (lookupKey (LibRs.applyAddAll ts).tool_name_to_validator k).isSome :=
      ⟨n, (htwf n).2 hn, (LibRs.applyAddAll_keysMatch ts hwf n).2 hmem⟩
    rw [LibRs.add_tool_cases, if_pos hcond]

/-- Concrete instance of add_tool_rejection_atomic: both fixture
registries reject a second registration of their greet tool and are
returned unchanged. -/
theorem add_tool_rejection_atomic_witness :
    (ToolboxRs.applyAddAll [greetTTool]).add_tool greetTTool
        = (ToolboxRs.applyAddAll [greetTTool], some greetTTool)
    ∧ (LibRs.applyAddAll [greetRTool]).add_tool greetRTool
        = (LibRs.applyAddAll [greetRTool], some greetRTool) :=
  ⟨add_tool_rejection_atomic.1 (ToolboxRs.applyAddAll [greetTTool]) greetTTool
      ⟨"greet", by decide, by decide⟩,
    add_tool_rejection_atomic.2 [greetRTool] greetRTool
      (fun t ht => by
        rw [List.mem_singleton] at ht
        subst ht
        intro n
        exact Iff.rfl)
      (fun n => Iff.rfl)
      ⟨"greet", by decide, by decide⟩⟩

/-- C3: a call whose envelope carries a registered name and parameters
passing the schema of that name always reaches the owning tool, chosen
by scanning the registered tools in registration order and stopping at
the first whose names contain the requested one, and the pipeline
returns exactly what the tool returned (the tool error is wrapped in
the Tool variant; no parse-layer error and no panic can result).  The
second conjunct states the same forwarding for the toolbox.rs dispatch
loop call_from_args: when a tool is found, its result is returned with
nothing added by the dispatch layer. -/
theorem valid_call_reaches_owning_tool {O E : Type} :
    (∀ (ts : List (LibRs.RTool O E)), (∀ t ∈ ts, t.WF) →
      ∀ (m : JsonMap) (n : String) (val : Validator) (p : JsonMap),
        lookupKey m "name" = some (.str n) →
        (LibRs.applyAddAll ts).get_validator n = some val →
        lookupKey m "parameters" = some (.obj p) →
        val (.obj p) = none →
        ∃ tool, (LibRs.applyAddAll ts).all_tools.find?
            (fun t => t.function_names.contains n) = some tool ∧
          (LibRs.applyAddAll ts).call_from_value (.obj m) =
            some (LibRs.wrapToolResult (tool.run n p)))
    ∧ (∀ (tb : ToolboxRs.ToolBoxLocal O E) (fc : ToolboxRs.FunctionCallArgs)
          (tool : ToolboxRs.TTool O E),
        tb.all_tools.find?
            (fun t => t.function_names.contains fc.function_name) = some tool →
        tb.call_from_args fc = tool.call_function fc.function_name fc.parameters) := by
  constructor
  · intro ts hwf m n val p hname hval hparams haccept
    have hparse := LibRs.parse_ok (LibRs.applyAddAll ts) m n val p hname hval hparams haccept
    have hsome : (lookupKey (LibRs.applyAddAll ts).tool_name_to_validator n).isSome := by
      have hv : lookupKey (LibRs.applyAddAll ts).tool_name_to_validator n = some val := hval
      rw [hv]
      rfl
    have hmem : n ∈ (LibRs.applyAddAll ts).allFunctionNames :=
      (LibRs.applyAddAll_keysMatch ts hwf n).1 hsome
    cases hfind : (LibRs.applyAddAll ts).all_tools.find?
        (fun t => t.function_names.contains n) with
    | none =>
      rw [List.find?_eq_none] at hfind
      rw [LibRs.mem_registryFunctionNames] at hmem
      obtain ⟨t, ht, hmem2⟩ := hmem
      exact absurd (by simpa [List.elem_iff] using hmem2) (hfind t ht)
    | some tool =>
      refine ⟨tool, rfl, ?_⟩
      have hcall : (LibRs.applyAddAll ts).call { name := n, parameters := p }
          = some (tool.run n p) :=
        LibRs.call_found _ _ tool hfind
      unfold LibRs.ToolBox.call_from_value
      rw [hparse]
      simp only []
      rw [hcall]
      cases tool.run n p with
      | ok o => rfl
      | error e => rfl

  · intro tb fc tool h
    unfold ToolboxRs.ToolBoxLocal.call_from_args
    rw [h]

/-- Concrete instance of valid_call_reaches_owning_tool: a schema-valid
greet call through the lib.rs pipeline returns the greeting produced by
the fixture tool. -/
theorem valid_call_reaches_owning_tool_witness :
    ∃ tool, (LibRs.applyAddAll [greetRTool]).all_tools.find?
        (fun t => t.function_names.contains "greet") = some tool ∧
      (LibRs.applyAddAll [greetRTool]).call_from_value
          (.obj [("name", .str "greet"),
                 ("parameters", .obj [("greeting", .str "hi")])]) =
        some (LibRs.wrapToolResult (tool.run "greet" [("greeting", .str "hi")])) := by
  have hwf : ∀ t ∈ [greetRTool], t.WF := by
    intro t ht
    rw [List.mem_singleton] at ht
    subst ht
    intro n
    exact Iff.rfl
  exact valid_call_reaches_owning_tool.1 [greetRTool] hwf
    [("name", .str "greet"), ("parameters", .obj [("greeting", .str "hi")])]
    "greet" greetValidator [("greeting", .str "hi")] rfl rfl rfl rfl

/-- C4: a value whose name field is a string matching no registered
function name makes call_from_value answer the ToolDoesNotExist error
carrying that name (the FunctionNotFound-class error of lib.rs), and no
tool is invoked: the run fields of the registered tools are universally
quantified through ts and the result does not contain or depend on any
of them. -/
theorem unknown_name_yields_not_found {O E : Type}
    (ts : List (LibRs.RTool O E)) (hwf : ∀ t ∈ ts, t.WF)
    (v : JValue) (n : String)
    (hname : v.get "name" = some (.str n))
    (hmem : n ∉ (LibRs.applyAddAll ts).allFunctionNames) :
    (LibRs.applyAddAll ts).call_from_value v =
      some (.error (.ToolDoesNotExist v n)) := by
  have hnone : (LibRs.applyAddAll ts).get_validator n = none := by
    cases hv : (LibRs.applyAddAll ts).get_validator n with
    | none => rfl
    | some val =>
      have hsome : (lookupKey (LibRs.applyAddAll ts).tool_name_to_validator n).isSome := by
        have hv2 : lookupKey (LibRs.applyAddAll ts).tool_name_to_validator n = some val := hv
        rw [hv2]
        rfl
      exact absurd ((LibRs.applyAddAll_keysMatch ts hwf n).1 hsome) hmem
  have hparse := LibRs.parse_unknown_name (LibRs.applyAddAll ts) v (.str n) n hname rfl hnone
  unfold LibRs.ToolBox.call_from_value
  rw [hparse]
  rfl

/-- Concrete instance of unknown_name_yields_not_found: calling the
unregistered name nope on the greet registry. -/
theorem unknown_name_yields_not_found_witness :
    (LibRs.applyAddAll [greetRTool]).call_from_value
        (.obj [("name", .str "nope"), ("parameters", .obj [])]) =
      some (.error (.ToolDoesNotExist
        (.obj [("name", .str "nope"), ("parameters", .obj [])]) "nope")) :=
  unknown_name_yields_not_found [greetRTool]
    (fun t ht => by
      rw [List.mem_singleton] at ht
      subst ht
      intro n
      exact Iff.rfl)
    (.obj [("name", .str "nope"), ("parameters", .obj [])]) "nope" rfl (by decide)

/-- C5: a value naming a registered function whose parameters object is
rejected by the validator of that function makes call_from_value answer
the DoesNotMatchToolSchema error whose carried issue text embeds the
violation path of the validator and is never empty, and no tool is
invoked (the result is this parse-layer error for every choice of the
run fields of the registered tools).  The second conjunct states the
guarantee the other way round: whenever parsing succeeds, the parsed
parameters passed the validator of the parsed name, so a tool only ever
runs on schema-validated parameters. -/
theorem schema_mismatch_short_circuits {O E : Type} :
    (∀ (tb : LibRs.ToolBox O E) (v ps : JValue) (n : String) (val : Validator)
        (w : SchemaViolation),
      v.get "name" = some (.str n) →
      tb.get_validator n = some val →
      v.get "parameters" = some ps →
      ps.isObject = true →
      val ps = some w →
      tb.call_from_value v =
          some (.error (.DoesNotMatchToolSchema v (LibRs.mkSchemaIssue w)))
        ∧ LibRs.mkSchemaIssue w ≠ "")
    ∧ (∀ (tb : LibRs.ToolBox O E) (input : JValue) (fc : LibRs.FunctionCall),
        tb.parse_value_tool_call input = .ok fc →
        ∃ val, tb.get_validator fc.name = some val ∧ val (.obj fc.parameters) = none) := by
  constructor
  · intro tb v ps n val w h1 h3 h4 h5 h6
    have hparse := LibRs.parse_schema_mismatch tb v (.str n) ps n val w h1 rfl h3 h4 h5 h6
    constructor
    · unfold LibRs.ToolBox.call_from_value
      rw [hparse]
      rfl
    · intro hempty
      unfold LibRs.mkSchemaIssue at hempty
      have h2 := congrArg String.data hempty
      simp only [String.data_append] at h2
      rw [List.append_eq_nil, List.append_eq_nil, List.append_eq_nil,
        List.append_eq_nil, List.append_eq_nil, List.append_eq_nil,
        List.append_eq_nil] at h2
      exact absurd h2.1.1.1.1.1.1.1 (by decide)
  · intro tb input fc h
    obtain ⟨m, val, _, _, hval, _, hacc⟩ := LibRs.parse_ok_inv tb input fc h
    exact ⟨val, hval, hacc⟩

/-- Concrete instance of schema_mismatch_short_circuits: a greet call
with an empty parameters object is rejected by the required-property
constraint and never reaches the tool. -/
theorem schema_mismatch_short_circuits_witness :
    greetToolBox.call_from_value
        (.obj [("name", .str "greet"), ("parameters", .obj [])]) =
      some (.error (.DoesNotMatchToolSchema
        (.obj [("name", .str "greet"), ("parameters", .obj [])])
        (LibRs.mkSchemaIssue
          { message := "`greeting` is a required property", instanceText := "",
            instancePath := "", schemaPath := "/required" })))
    ∧ LibRs.mkSchemaIssue
        { message := "`greeting` is a required property", instanceText := "",
          instancePath := "", schemaPath := "/required" } ≠ "" :=
  schema_mismatch_short_circuits.1 greetToolBox
    (.obj [("name", .str "greet"), ("parameters", .obj [])]) (.obj []) "greet"
    greetValidator
    { message := "`greeting` is a required property", instanceText := "",
      instancePath := "", schemaPath := "/required" }
    rfl rfl rfl rfl rfl

/-- C6 counterexample: on the concrete registry holding only greet, the
input that both lacks a parameters field and names the unknown function
nope is answered with the unknown-name error, not with the missing
parameters error the claim requires, because parse_value_tool_call
resolves the name against the registry before it looks at the
parameters field. -/
theorem envelope_order_counterexample :
    greetToolBox.parse_value_tool_call (.obj [("name", .str "nope")]) =
        .error (.ToolDoesNotExist (.obj [("name", .str "nope")]) "nope")
    ∧ greetToolBox.parse_value_tool_call (.obj [("name", .str "nope")]) ≠
        .error (.MissingParameters (.obj [("name", .str "nope")])) := by
  have h1 : greetToolBox.parse_value_tool_call (.obj [("name", .str "nope")]) =
      .error (.ToolDoesNotExist (.obj [("name", .str "nope")]) "nope") := rfl
  refine ⟨h1, ?_⟩
  intro h
  rw [h1] at h
  injection h with h2
  exact LibRs.ValueToolCallParseError.noConfusion h2

/-- C6 amended: the envelope checks of parse_value_tool_call run in
this order, short-circuiting on the first failure: (1) string input
that is not valid JSON yields ConversionError; (2) there is no
not-an-object check, a non-object top level falls into MissingName
because its field lookup yields nothing; (3) a missing name field
yields MissingName and a non-string one NameNotAString; (4) a name
absent from the registry yields ToolDoesNotExist, checked before the
parameters field is inspected; (5) a missing parameters field yields
MissingParameters and a non-object one ParametersNotAObject; (6) last,
schema validation of parameters yields DoesNotMatchToolSchema. -/
theorem envelope_check_order {O E : Type} :
    (∀ (p : String → Option JValue) (tb : LibRs.ToolBox O E) (s : String),
      p s = none →
      LibRs.ToolBox.parse_str_tool_call p tb s = .error .ConversionError)
    ∧ (∀ (tb : LibRs.ToolBox O E) (v : JValue), v.isObject = false →
        tb.parse_value_tool_call v = .error (.MissingName v))
    ∧ (∀ (tb : LibRs.ToolBox O E) (v : JValue), v.get "name" = none →
        tb.parse_value_tool_call v = .error (.MissingName v))
    ∧ (∀ (tb : LibRs.ToolBox O E) (v nv : JValue),
        v.get "name" = some nv → nv.asStr = none →
        tb.parse_value_tool_call v = .error (.NameNotAString v))
    ∧ (∀ (tb : LibRs.ToolBox O E) (v : JValue) (n : String),
        v.get "name" = some (.str n) → tb.get_validator n = none →
        tb.parse_value_tool_call v = .error (.ToolDoesNotExist v n))
    ∧ (∀ (tb : LibRs.ToolBox O E) (v : JValue) (n : String) (val : Validator),
        v.get "name" = some (.str n) → tb.get_validator n = some val →
        v.get "parameters" = none →
        tb.parse_value_tool_call v = .error (.MissingParameters v))
    ∧ (∀ (tb : LibRs.ToolBox O E) (v ps : JValue) (n : String) (val : Validator),
        v.get "name" = some (.str n) → tb.get_validator n = some val →
        v.get "parameters" = some ps → ps.isObject = false →
        tb.parse_value_tool_call v = .error (.ParametersNotAObject v))
    ∧ (∀ (tb : LibRs.ToolBox O E) (v ps : JValue) (n : String) (val : Validator)
          (w : SchemaViolation),
        v.get "name" = some (.str n) → tb.get_validator n = some val →
        v.get "parameters" = some ps → ps.isObject = true → val ps = some w →
        tb.parse_value_tool_call v =
          .error (.DoesNotMatchToolSchema v (LibRs.mkSchemaIssue w))) := by
  refine ⟨?_, ?_, ?_, ?_, ?_, ?_, ?_, ?_⟩
  · intro p tb s hp
    unfold LibRs.ToolBox.parse_str_tool_call
    rw [hp]
  · intro tb v hv
    apply LibRs.parse_missing_name
    cases v with
    | obj fields => exact absurd hv (by simp [JValue.isObject])
    | null => rfl
    | bool b => rfl
    | num n2 => rfl
    | str s => rfl
    | arr xs => rfl
  · intro tb v hv
    exact LibRs.parse_missing_name tb v hv
  · intro tb v nv h1 h2
    exact LibRs.parse_name_not_string tb v nv h1 h2
  · intro tb v n h1 h2
    exact LibRs.parse_unknown_name tb v (.str n) n h1 rfl h2
  · intro tb v n val h1 h2 h3
    exact LibRs.parse_missing_parameters tb v (.str n) n val h1 rfl h2 h3
  · intro tb v ps n val h1 h2 h3 h4
    exact LibRs.parse_parameters_not_object tb v (.str n) ps n val h1 rfl h2 h3 h4
  · intro tb v ps n val w h1 h2 h3 h4 h5
    exact LibRs.parse_schema_mismatch tb v (.str n) ps n val w h1 rfl h2 h3 h4 h5

/-- Concrete instance of envelope_check_order: the unknown-name check
fires on an input with no parameters field at all. -/
theorem envelope_check_order_witness :
    greetToolBox.parse_value_tool_call (.obj [("name", .str "missing-params")]) =
      .error (.ToolDoesNotExist (.obj [("name", .str "missing-params")])
        "missing-params") :=
  envelope_check_order.2.2.2.2.1 greetToolBox
    (.obj [("name", .str "missing-params")]) "missing-params" rfl rfl

/-- C7 counterexample: the two fixture tools have disjoint function
names and both register successfully, yet the merged schema does not
keep the oneOf binding of the first tool: registration only checks
function names, and the generated tool schemas all share the keys
dollar-schema and oneOf, so the second extend overwrites the bindings
of the first tool. -/
theorem schema_merge_overwrites_counterexample :
    (ToolboxRs.ToolBoxLocal.new.add_tool greetTTool).2 = none
    ∧ (greetLocalBox.add_tool farewellTTool).2 = none
    ∧ (∀ n ∈ farewellTTool.function_names, n ∉ greetTTool.function_names)
    ∧ lookupKey greetFarewellBox.schema "oneOf" =
        lookupKey farewellTTool.schema "oneOf"
    ∧ lookupKey greetFarewellBox.schema "oneOf" ≠
        lookupKey greetTTool.schema "oneOf" := by
  refine ⟨rfl, rfl, by decide, rfl, ?_⟩
  intro h
  have h2 : lookupKey farewellTTool.schema "oneOf" =
      lookupKey greetTTool.schema "oneOf" := by
    rw [← h]
    rfl
  exact absurd h2 (by decide)

/-- C7 amended: registering two tools with disjoint function names
into a fresh registry always succeeds, and the key set of the merged
schema is the union of the key sets of the two tool schemas; a key only
held by the first tool keeps its value, but every key held by the
second tool ends with the value of the second tool, so bindings of the
first tool are preserved only on keys the second tool does not also
declare (the merge overwrites on shared keys; it does not reject
them). -/
theorem schema_merge_key_union {O E : Type} (t1 t2 : ToolboxRs.TTool O E)
    (hdisj : ∀ n ∈ t2.function_names, n ∉ t1.function_names) :
    (ToolboxRs.ToolBoxLocal.new.add_tool t1).2 = none
    ∧ ((ToolboxRs.ToolBoxLocal.new.add_tool t1).1.add_tool t2).2 = none
    ∧ (∀ k, (lookupKey (((ToolboxRs.ToolBoxLocal.new.add_tool t1).1.add_tool t2).1.schema) k).isSome
          ↔ (lookupKey t1.schema k).isSome = true ∨ (lookupKey t2.schema k).isSome = true)
    ∧ ((mapKeys t1.schema).Nodup → ∀ k, k ∉ mapKeys t2.schema →
        lookupKey (((ToolboxRs.ToolBoxLocal.new.add_tool t1).1.add_tool t2).1.schema) k
          = lookupKey t1.schema k)
    ∧ ((mapKeys t2.schema).Nodup → ∀ k, k ∈ mapKeys t2.schema →
        lookupKey (((ToolboxRs.ToolBoxLocal.new.add_tool t1).1.add_tool t2).1.schema) k
          = lookupKey t2.schema k) := by
  have e1 : ToolboxRs.ToolBoxLocal.new.add_tool t1 =
      (({ all_tools := [t1], schema := mapExtend [] t1.schema } :
        ToolboxRs.ToolBoxLocal O E), none) := rfl
  have hnot : ¬ ∃ n ∈ t2.function_names,
      n ∈ ({ all_tools := [t1], schema := mapExtend [] t1.schema } :
        ToolboxRs.ToolBoxLocal O E).allFunctionNames := by
    rintro ⟨n, hn, hmem⟩
    rw [ToolboxRs.mem_allFunctionNames] at hmem
    obtain ⟨t, ht, hm2⟩ := hmem
    rw [List.mem_singleton] at ht
    subst ht
    exact hdisj n hn hm2
  have e2 : ({ all_tools := [t1], schema := mapExtend [] t1.schema } :
      ToolboxRs.ToolBoxLocal O E).add_tool t2 =
      (({ all_tools := [t1] ++ [t2],
          schema := mapExtend (mapExtend [] t1.schema) t2.schema } :
        ToolboxRs.ToolBoxLocal O E), none) := by
    rw [ToolboxRs.add_tool_eq, if_neg hnot]
  refine ⟨by rw [e1], by rw [e1, e2], ?_, ?_, ?_⟩
  · intro k
    rw [e1]
    simp only []
    rw [e2]
    simp only []
    rw [isSome_lookupKey_mapExtend, isSome_lookupKey_mapExtend]
    simp [lookupKey]
  · intro hnd k hk
    rw [e1]
    simp only []
    rw [e2]
    simp only []
    rw [lookupKey_mapExtend_not_mem t2.schema k hk]
    by_cases hmem : k ∈ mapKeys t1.schema
    · exact lookupKey_mapExtend_mem t1.schema k hnd hmem []
    · rw [lookupKey_mapExtend_not_mem t1.schema k hmem []]
      have hnone : lookupKey t1.schema k = none := by
        cases hv : lookupKey t1.schema k with
        | none => rfl
        | some v =>
          have : (lookupKey t1.schema k).isSome := by rw [hv]; rfl
          exact absurd ((isSome_lookupKey_iff_mem t1.schema k).1 this) hmem
      rw [hnone]
      rfl
  · intro hnd k hk
    rw [e1]
    simp only []
    rw [e2]
    simp only []
    exact lookupKey_mapExtend_mem t2.schema k hnd hk _

/-- Concrete instance of schema_merge_key_union: after both fixture
registrations, the dollar-schema key carries the binding of the second
tool. -/
theorem schema_merge_key_union_witness :
    lookupKey (((ToolboxRs.ToolBoxLocal.new.add_tool greetTTool).1.add_tool
        farewellTTool).1.schema) "$schema"
      = lookupKey farewellTTool.schema "$schema" :=
  (schema_merge_key_union greetTTool farewellTTool (by decide)).2.2.2.2
    (by decide) "$schema" (by decide)

/-- C8: the three entry points are one layered pipeline.  A string the
JSON parser accepts is dispatched exactly as its parsed value; a string
it rejects is answered with the invalid-json Parsing error by a
computation that never consults the registry (the result is the same
for every registry); and call_from_value is the composition of envelope
parsing with the bare dispatch entry point call_from_args. -/
theorem entry_points_layered {O E : Type} :
    (∀ (p : String → Option JValue) (tb : ToolboxRs.ToolBoxLocal O E)
        (s : String) (v : JValue),
      p s = some v →
      ToolboxRs.ToolBoxLocal.call_from_str p tb s = tb.call_from_value v)
    ∧ (∀ (p : String → Option JValue) (tb tb2 : ToolboxRs.ToolBoxLocal O E)
          (s : String),
        p s = none →
        ToolboxRs.ToolBoxLocal.call_from_str p tb s =
            .error (.Parsing "The tool call is not valid json")
          ∧ ToolboxRs.ToolBoxLocal.call_from_str p tb s =
            ToolboxRs.ToolBoxLocal.call_from_str p tb2 s)
    ∧ (∀ (tb : ToolboxRs.ToolBoxLocal O E) (v : JValue)
          (fc : ToolboxRs.FunctionCallArgs),
        ToolboxRs.into_function_call_from_value v = .ok fc →
        tb.call_from_value v = tb.call_from_args fc)
    ∧ (∀ (tb : ToolboxRs.ToolBoxLocal O E) (v : JValue)
          (e : ToolboxRs.FunctionCallParsingError),
        ToolboxRs.into_function_call_from_value v = .error e →
        tb.call_from_value v = .error e.toFunctionCallError) := by
  refine ⟨?_, ?_, ?_, ?_⟩
  · intro p tb s v hp
    unfold ToolboxRs.ToolBoxLocal.call_from_str ToolboxRs.into_function_call_from_str
      ToolboxRs.ToolBoxLocal.call_from_value
    rw [hp]
  · intro p tb tb2 s hp
    unfold ToolboxRs.ToolBoxLocal.call_from_str ToolboxRs.into_function_call_from_str
    rw [hp]
    exact ⟨rfl, rfl⟩
  · intro tb v fc h
    unfold ToolboxRs.ToolBoxLocal.call_from_value
    rw [h]
  · intro tb v e h
    unfold ToolboxRs.ToolBoxLocal.call_from_value
    rw [h]

/-- Concrete instance of entry_points_layered: a rejected string gives
the invalid-json error on the fixture registry, and an accepted one is
dispatched as its value. -/
theorem entry_points_layered_witness :
    ToolboxRs.ToolBoxLocal.call_from_str (fun _ => none) greetLocalBox "not json" =
        .error (.Parsing "The tool call is not valid json")
    ∧ ToolboxRs.ToolBoxLocal.call_from_str (fun _ => some .null) greetLocalBox "null" =
        greetLocalBox.call_from_value .null :=
  ⟨(entry_points_layered.2.1 (fun _ => none) greetLocalBox greetLocalBox
      "not json" rfl).1,
    entry_points_layered.1 (fun _ => some .null) greetLocalBox "null" .null rfl⟩

/-- C9: parsing the envelope object built from a registered function
name and a schema-valid parameters object succeeds and reproduces
exactly that name and that parameters object. -/
theorem parse_round_trip {O E : Type} (tb : LibRs.ToolBox O E) (n : String)
    (p2 : JsonMap) (val : Validator)
    (hval : tb.get_validator n = some val)
    (hacc : val (.obj p2) = none) :
    tb.parse_value_tool_call (.obj [("name", .str n), ("parameters", .obj p2)]) =
      .ok { name := n, parameters := p2 } :=
  LibRs.parse_ok tb [("name", .str n), ("parameters", .obj p2)] n val p2
    rfl hval rfl hacc

/-- Concrete instance of parse_round_trip on the greet fixture. -/
theorem parse_round_trip_witness :
    greetToolBox.parse_value_tool_call
        (.obj [("name", .str "greet"),
               ("parameters", .obj [("greeting", .str "hi")])]) =
      .ok { name := "greet", parameters := [("greeting", .str "hi")] } :=
  parse_round_trip greetToolBox "greet" [("greeting", .str "hi")]
    greetValidator rfl rfl

/-- C10: a FunctionCall whose name is registered never drives call into
its panic branch, and every FunctionCall produced by the parse method
of the same registry has a registered name; conversely the panic branch
is taken exactly on names no registered tool provides, which only a
call produced elsewhere can carry since the constructor is private to
the module. -/
theorem parsed_call_never_panics {O E : Type} :
    (∀ (ts : List (LibRs.RTool O E)), (∀ t ∈ ts, t.WF) →
      ∀ (v : JValue) (fc : LibRs.FunctionCall),
        (LibRs.applyAddAll ts).parse_value_tool_call v = .ok fc →
        (LibRs.applyAddAll ts).call fc ≠ none)
    ∧ (∀ (tb : LibRs.ToolBox O E) (fc : LibRs.FunctionCall),
        tb.call fc = none ↔ fc.name ∉ tb.allFunctionNames) := by
  constructor
  · intro ts hwf v fc hparse
    obtain ⟨m, val, _, _, hval, _, _⟩ :=
      LibRs.parse_ok_inv (LibRs.applyAddAll ts) v fc hparse
    have hsome :
        (lookupKey (LibRs.applyAddAll ts).tool_name_to_validator fc.name).isSome := by
      have hv : lookupKey (LibRs.applyAddAll ts).tool_name_to_validator fc.name
          = some val := hval
      rw [hv]
      rfl
    have hmem := (LibRs.applyAddAll_keysMatch ts hwf fc.name).1 hsome
    intro hnone
    exact absurd hmem ((LibRs.call_eq_none_iff (LibRs.applyAddAll ts) fc).1 hnone)
  · intro tb fc
    exact LibRs.call_eq_none_iff tb fc

/-- Concrete instance of parsed_call_never_panics: the call parsed from
a valid greet envelope does not panic, while a foreign call naming bye
takes the panic branch. -/
theorem parsed_call_never_panics_witness :
    (LibRs.applyAddAll [greetRTool]).call
        { name := "greet", parameters := [("greeting", .str "hi")] } ≠ none
    ∧ ((LibRs.applyAddAll [greetRTool]).call
        { name := "bye", parameters := [] } = none ↔
       "bye" ∉ (LibRs.applyAddAll [greetRTool]).allFunctionNames) := by
  have hwf : ∀ t ∈ [greetRTool], t.WF := by
    intro t ht
    rw [List.mem_singleton] at ht
    subst ht
    intro n
    exact Iff.rfl
  exact ⟨parsed_call_never_panics.1 [greetRTool] hwf
      (.obj [("name", .str "greet"),
             ("parameters", .obj [("greeting", .str "hi")])])
      { name := "greet", parameters := [("greeting", .str "hi")] } rfl,
    parsed_call_never_panics.2 (LibRs.applyAddAll [greetRTool])
      { name := "bye", parameters := [] }⟩
